import Mathlib

/-!
Shallow embedding of the NewsScraper acquisition pipeline.

Two scripts are modelled:
* `src/tdnet_download.py` — the TDnet PDF downloader (`TdnetDownloader`):
  per-item bounded retry loop, PDF validation against the persisted bytes,
  cleanup of invalid files, eligibility filtering by the last digit of the
  company code, failure-file persistence and one replay pass.
* `src/news_download.py` — the RSS news downloader: per-entry fetch,
  JSON artifact store, append-only CSV index with a header written when the
  file does not yet exist, and a randomized sleep after processed entries.

Network fetches, the PDF parser and the random delays are modelled as
oracles (explicit function parameters); the filesystem is explicit state.
-/

namespace NewsScraper

/-- Split a character list at every occurrence of `sep`, keeping empty
groups, exactly like Python's `str.split(sep)` with an explicit one-char
separator. -/
def splitOnChar (sep : Char) : List Char → List (List Char)
  | [] => [[]]
  | c :: cs =>
      let r := splitOnChar sep cs
      if c = sep then [] :: r
      else
        match r with
        | [] => [[c]]
        | g :: gs => (c :: g) :: gs

/-- Fields obtained by splitting a raw CSV line at every comma (the naive
reading matching the naive writing of `save_index_to_csv`). -/
def csvFields (s : String) : List String :=
  (splitOnChar ',' s.data).map List.asString

/-- Lines of a file's textual content, split at every newline. -/
def fileLines (s : String) : List String :=
  (splitOnChar '\n' s.data).map List.asString

/-! ## TDnet PDF downloader (src/tdnet_download.py) -/

/-- Abstract payload bytes of a downloaded PDF. -/
abbrev Payload := Nat

/-- Configuration record, mirroring the `Config` dataclass. -/
structure Config where
  max_retries : Nat
  download_delay : Nat × Nat
  url_template : String
  config_file : String
  log_file : String
  extracted_data_file : String
  failed_downloads_file : String
  pdf_directory : String

/-- One item extracted from the TDnet listing (`extract_info` output). -/
structure TdnetItem where
  pubdate : String
  company_code : String
  document_url : String
  deriving DecidableEq

/-- Contents of a file in the modelled filesystem: either PDF bytes written
by `save_pdf`, or the JSON list of failed items written by `save_data`. -/
inductive FileData where
  | pdf (content : Payload)
  | failList (items : List TdnetItem)
  deriving DecidableEq

/-- The filesystem: a map from paths to file contents (`none` = no file). -/
abbrev TdnetFS := String → Option FileData

/-- Write (or overwrite) the file at path `p`. -/
def updateFS (fs : TdnetFS) (p : String) (v : FileData) : TdnetFS :=
  fun q => if q = p then some v else fs q

/-- Delete the file at path `p` (`os.remove`). -/
def removeFS (fs : TdnetFS) (p : String) : TdnetFS :=
  fun q => if q = p then none else fs q

/-- Outcome of one network fetch: `err` models `requests.get` or
`raise_for_status` raising; `ok c` models a 2xx response with body `c`. -/
inductive FetchOutcome where
  | err
  | ok (content : Payload)
  deriving DecidableEq

/-- Per-item oracles: the outcome of the k-th fetch attempt and the value
drawn by `random.randint(*download_delay)` for the k-th attempt. -/
structure AttemptEnv where
  fetch : Nat → FetchOutcome
  delay : Nat → Nat

/-- Observable events of the PDF pipeline: a network fetch of a URL, and a
`time.sleep` of a drawn duration. -/
inductive Event where
  | fetch (url : String)
  | sleep (d : Nat)
  deriving DecidableEq

/-- Model of `os.path.join` for the one-level joins used by the script. -/
def joinPath (dir name : String) : String := dir ++ "/" ++ name

/-- Model of `f"{date}_{company_code}.pdf"` with
`date = pubdate.split(" ")[0]`. -/
def pdfFileName (item : TdnetItem) : String :=
  ((splitOnChar ' ' item.pubdate.data).headD []).asString
    ++ "_" ++ item.company_code ++ ".pdf"

/-- Final artifact path of an item's PDF. -/
def pdfPath (cfg : Config) (item : TdnetItem) : String :=
  joinPath cfg.pdf_directory (pdfFileName item)

/-- Model of `TdnetDownloader.download_pdf`: one `requests.get`, then — only
when the response was successful — `time.sleep(random.randint(*delay))`.
A failed request raises, so no sleep event follows it. -/
def download_pdf (fetchO : Nat → FetchOutcome) (delay : Nat → Nat) (k : Nat)
    (url : String) : Except String Payload × List Event :=
  match fetchO k with
  | .err => (.error "RequestException", [.fetch url])
  | .ok c => (.ok c, [.fetch url, .sleep (delay k)])

/-- Model of `TdnetDownloader.save_pdf`: write the bytes at the path. -/
def save_pdf (fs : TdnetFS) (content : Payload) (path : String) : TdnetFS :=
  updateFS fs path (.pdf content)

/-- Page count returned by `PdfReader` on given bytes; `none` models the
parser raising. This is the PDF-parsing oracle. -/
abbrev PdfParser := Payload → Option Nat

/-- Whether `PdfReader` accepts the bytes with at least one page. -/
def pdfContentValid (parse : PdfParser) (c : Payload) : Bool :=
  match parse c with
  | some n => decide (0 < n)
  | none => false

/-- Model of `TdnetDownloader.validate_pdf`: re-read the persisted file and
check `len(pdf.pages) > 0`; any exception (missing file, unparseable
content) yields `false`. -/
def validate_pdf (parse : PdfParser) (fs : TdnetFS) (path : String) : Bool :=
  match fs path with
  | some (.pdf c) => pdfContentValid parse c
  | _ => false

/-- One attempt of the retry loop fails: the fetch raises, or the fetched
payload is rejected by the validator. -/
def attemptFailsB (parse : PdfParser) (aenv : AttemptEnv) (k : Nat) : Bool :=
  match aenv.fetch k with
  | .err => true
  | .ok c => !(pdfContentValid parse c)

/-- Loop body of `TdnetDownloader.download_single_pdf`: `n` is the number of
remaining iterations of `for _ in range(max_retries)`, `k` the index of the
current attempt. A raised fetch error is caught by the `except` clause and
the loop continues; an invalid persisted file is removed before retrying. -/
def downloadSinglePdfAux (cfg : Config) (parse : PdfParser) (aenv : AttemptEnv)
    (item : TdnetItem) : Nat → Nat → TdnetFS → Bool × TdnetFS × List Event
  | 0, _, fs => (false, fs, [])
  | n + 1, k, fs =>
      match download_pdf aenv.fetch aenv.delay k item.document_url with
      | (.error _, tr) =>
          let r := downloadSinglePdfAux cfg parse aenv item n (k + 1) fs
          (r.1, r.2.1, tr ++ r.2.2)
      | (.ok c, tr) =>
          let path := pdfPath cfg item
          let fs1 := save_pdf fs c path
          if validate_pdf parse fs1 path then
            (true, fs1, tr)
          else
            let r := downloadSinglePdfAux cfg parse aenv item n (k + 1)
              (removeFS fs1 path)
            (r.1, r.2.1, tr ++ r.2.2)

/-- Model of `TdnetDownloader.download_single_pdf`: up to `max_retries`
attempts, returning the terminal outcome, the filesystem and the event
trace. -/
def download_single_pdf (cfg : Config) (parse : PdfParser) (aenv : AttemptEnv)
    (item : TdnetItem) (fs : TdnetFS) : Bool × TdnetFS × List Event :=
  downloadSinglePdfAux cfg parse aenv item cfg.max_retries 0 fs

/-- Model of `TdnetDownloader.process_downloads`: iterate over the items,
apply the `item["company_code"][-1] == "0"` eligibility test (indexing an
empty string raises `IndexError`, aborting the batch), collect the items
whose download failed. -/
def process_downloads (cfg : Config) (parse : PdfParser)
    (env : TdnetItem → AttemptEnv) :
    List TdnetItem → TdnetFS →
      Except String (List TdnetItem × TdnetFS × List Event)
  | [], fs => .ok ([], fs, [])
  | it :: rest, fs =>
      match it.company_code.data.getLast? with
      | none => .error "IndexError"
      | some c =>
          if c = '0' then
            let r := download_single_pdf cfg parse (env it) it fs
            match process_downloads cfg parse env rest r.2.1 with
            | .error e => .error e
            | .ok (failed, fs', tr') =>
                .ok ((if r.1 then failed else it :: failed), fs', r.2.2 ++ tr')
          else
            process_downloads cfg parse env rest fs

/-- Model of `TdnetDownloader.save_data`: dump the list to a JSON file. -/
def save_data (fs : TdnetFS) (items : List TdnetItem) (path : String) :
    TdnetFS :=
  updateFS fs path (.failList items)

/-- Model of `TdnetDownloader.retry_failed_downloads`: persist the failed
items to the failure file, then replay them through `process_downloads`
(whose own failure list is discarded). -/
def retry_failed_downloads (cfg : Config) (parse : PdfParser)
    (env : TdnetItem → AttemptEnv) (failed : List TdnetItem) (fs : TdnetFS) :
    Except String (TdnetFS × List Event) :=
  if failed.isEmpty then .ok (fs, [])
  else
    let fs1 := save_data fs failed cfg.failed_downloads_file
    match process_downloads cfg parse env failed fs1 with
    | .error e => .error e
    | .ok (_, fs2, tr) => .ok (fs2, tr)

/-- Tail of `TdnetDownloader.run`: the main download pass followed by the
replay of the failed items. Returns the main-pass failure list, and the
filesystem and event trace after each of the two passes. -/
def run_download_phase (cfg : Config) (parse : PdfParser)
    (env : TdnetItem → AttemptEnv) (items : List TdnetItem) (fs : TdnetFS) :
    Except String (List TdnetItem × TdnetFS × List Event × TdnetFS × List Event) :=
  match process_downloads cfg parse env items fs with
  | .error e => .error e
  | .ok (failed, fs1, tr1) =>
      match retry_failed_downloads cfg parse env failed fs1 with
      | .error e => .error e
      | .ok (fs2, tr2) => .ok (failed, fs1, tr1, fs2, tr2)

/-! ## RSS news downloader (src/news_download.py) -/

/-- One feed entry as consumed by `process_single_feed`. -/
structure RssEntry where
  title : String
  date : String
  link : String
  deriving DecidableEq

/-- The article JSON document written by `save_article_to_json`. -/
structure ArticleData where
  id : String
  title : String
  date : String
  link : String
  text : String
  source : String
  deriving DecidableEq

/-- State of the news pipeline: the stored article files (path → document)
and the contents of `article_index.csv` (`none` = file does not exist). -/
structure NewsState where
  articles : String → Option ArticleData
  index : Option String

/-- Oracles of the news pipeline: the text extracted by
`fetch_article_text` for a URL (`none` models its internal exception
handler returning `None`), the value drawn by `random.uniform(3, 5)` for
the k-th entry, and whether the store step raises for the k-th entry. -/
structure NewsEnv where
  fetchText : String → Option String
  delay : Nat → ℚ
  storeErr : Nat → Bool

/-- Observable events of the news pipeline. -/
inductive NEvent where
  | nfetch (url : String)
  | nsleep (d : ℚ)
  deriving DecidableEq

/-- Path of a stored article: `base_dir / source_name / year_month /
f"{article_id}.json"`. -/
def articlePath (base source ym aid : String) : String :=
  base ++ "/" ++ source ++ "/" ++ ym ++ "/" ++ aid ++ ".json"

/-- Header line written by `save_index_to_csv` when the file is new. -/
def indexHeader : String := "ID,Title,Date,Source,File Path"

/-- The raw line appended for one index record: a plain comma join of the
five field values (the code builds it with an f-string, not `csv.writer`). -/
def formatIndexRow (aid title date source fpath : String) : String :=
  aid ++ "," ++ title ++ "," ++ date ++ "," ++ source ++ "," ++ fpath

/-- Model of `save_index_to_csv`: check existence, open for append (which
creates an empty file when absent), write the header when the existence
check said the file was missing, then write the row. -/
def save_index_to_csv (st : NewsState) (aid title date source fpath : String) :
    NewsState :=
  let fileExists := st.index.isSome
  let content := st.index.getD ""
  let content1 := if fileExists then content else content ++ indexHeader ++ "\n"
  { st with
    index := some (content1 ++ formatIndexRow aid title date source fpath ++ "\n") }

/-- Pointwise update of the article map. -/
def updateArticles (f : String → Option ArticleData) (p : String)
    (v : ArticleData) : String → Option ArticleData :=
  fun q => if q = p then some v else f q

/-- Model of `save_article_to_json`: write the document at its path. -/
def save_article_to_json (st : NewsState) (fpath : String) (d : ArticleData) :
    NewsState :=
  { st with articles := updateArticles st.articles fpath d }

/-- Body of the `try` block of `process_single_feed` after a successful
fetch: directory creation, article write and index append. A raised store
error carries the state at the raise point to the handler. -/
def processEntryBody (uid : String → String) (env : NewsEnv)
    (base source ym : String) (k : Nat) (e : RssEntry) (text : String)
    (st : NewsState) : Except (String × NewsState) NewsState :=
  if env.storeErr k then .error ("IOError", st)
  else
    let aid := uid e.link
    let fpath := articlePath base source ym aid
    let st1 := save_article_to_json st fpath
      ⟨aid, e.title, e.date, e.link, text, source⟩
    .ok (save_index_to_csv st1 aid e.title e.date source fpath)

/-- One iteration of the entry loop of `process_single_feed`: fetch the
text; when it is `None`, `continue` (note: this skips the trailing sleep);
otherwise run the body, absorb any exception with the `except` clause, and
take the `asyncio.sleep(random.uniform(3, 5))` at the end of the loop. -/
def process_entry (uid : String → String) (env : NewsEnv)
    (base source ym : String) (k : Nat) (e : RssEntry) (st : NewsState) :
    NewsState × List NEvent :=
  match env.fetchText e.link with
  | none => (st, [.nfetch e.link])
  | some text =>
      match processEntryBody uid env base source ym k e text st with
      | .ok st' => (st', [.nfetch e.link, .nsleep (env.delay k)])
      | .error (_, st') => (st', [.nfetch e.link, .nsleep (env.delay k)])

/-- The entry loop of `process_single_feed` over the remaining entries,
with `k` the index of the next entry. -/
def processEntries (uid : String → String) (env : NewsEnv)
    (base source ym : String) :
    List RssEntry → Nat → NewsState → NewsState × List NEvent
  | [], _, st => (st, [])
  | e :: rest, k, st =>
      let r1 := process_entry uid env base source ym k e st
      let r2 := processEntries uid env base source ym rest (k + 1) r1.1
      (r2.1, r1.2 ++ r2.2)

/-- Model of `process_single_feed`: parse the feed (`none` models
`feedparser.parse` raising, which returns early), then run the entry
loop. -/
def process_single_feed (uid : String → String) (env : NewsEnv)
    (sourceName base ym : String) (feed : Option (List RssEntry))
    (st : NewsState) : NewsState × List NEvent :=
  match feed with
  | none => (st, [])
  | some entries => processEntries uid env base sourceName ym entries 0 st

/-! ## Derived views of the news pipeline used by the lemmas -/

/-- Apply a list of article writes, in order, to an article map. -/
def applyOps (f : String → Option ArticleData) :
    List (String × ArticleData) → (String → Option ArticleData)
  | [] => f
  | (p, v) :: ops => applyOps (updateArticles f p v) ops

/-- The sequence of article writes performed by the entry loop over the
given entries, starting at entry counter `k`: entries whose fetch returns
`None` or whose store step raises write nothing. -/
def writeOps (uid : String → String) (env : NewsEnv)
    (base source ym : String) : List RssEntry → Nat → List (String × ArticleData)
  | [], _ => []
  | e :: rest, k =>
      (match env.fetchText e.link with
       | none => []
       | some t =>
           if env.storeErr k then []
           else [(articlePath base source ym (uid e.link),
             ⟨uid e.link, e.title, e.date, e.link, t, source⟩)])
      ++ writeOps uid env base source ym rest (k + 1)

/-- The concatenation of the index rows (each newline-terminated) appended
by the entry loop over the given entries, starting at counter `k`. -/
def rowsOf (uid : String → String) (env : NewsEnv)
    (base source ym : String) : List RssEntry → Nat → String
  | [], _ => ""
  | e :: rest, k =>
      (match env.fetchText e.link with
       | none => ""
       | some _ =>
           if env.storeErr k then ""
           else formatIndexRow (uid e.link) e.title e.date source
             (articlePath base source ym (uid e.link)) ++ "\n")
      ++ rowsOf uid env base source ym rest (k + 1)

/-! ## Concrete evaluation inputs -/

/-- Decide whether a trace ever performs two fetches back to back with no
sleep between them (the pacing property the spec demands rules this out). -/
def pacedBetweenFetches : List Event → Bool
  | .fetch _ :: .fetch _ :: _ => false
  | _ :: rest => pacedBetweenFetches rest
  | [] => true

/-- Concrete configuration with a retry budget of two. -/
def cxConfig : Config :=
  { max_retries := 2, download_delay := (1, 3), url_template := "tmpl",
    config_file := "cfg.json", log_file := "log.txt",
    extracted_data_file := "extracted.json",
    failed_downloads_file := "failed.json", pdf_directory := "pdfs" }

/-- Concrete eligible item (company code ends in the digit 0). -/
def cxItem : TdnetItem :=
  { pubdate := "2024-05-01 10:00", company_code := "1230",
    document_url := "docs/1230.pdf" }

/-- Concrete item with an empty company code, second in a batch. -/
def cxEmptyCodeItem : TdnetItem :=
  { pubdate := "2024-05-02 09:00", company_code := "",
    document_url := "docs/none.pdf" }

/-- Concrete eligible item whose download succeeds. -/
def cxGoodItem : TdnetItem :=
  { pubdate := "2024-05-02 09:30", company_code := "4560",
    document_url := "docs/4560.pdf" }

/-- Concrete ineligible item (company code ends in a digit other than 0). -/
def cxIneligibleItem : TdnetItem :=
  { pubdate := "2024-05-03 11:00", company_code := "7771",
    document_url := "docs/7771.pdf" }

/-- Concrete item with an empty company code, alone in a batch. -/
def cxEmptyOnlyItem : TdnetItem :=
  { pubdate := "2024-06-01 08:00", company_code := "",
    document_url := "docs/u6.pdf" }

/-- Oracle environment in which every fetch raises. -/
def cxEnvFail : TdnetItem → AttemptEnv :=
  fun _ => { fetch := fun _ => .err, delay := fun _ => 2 }

/-- Oracle environment in which every fetch succeeds with payload 7. -/
def cxEnvOk : TdnetItem → AttemptEnv :=
  fun _ => { fetch := fun _ => .ok 7, delay := fun _ => 1 }

/-- Parser oracle accepting every payload with one page. -/
def cxParse : PdfParser := fun _ => some 1

/-- Parser oracle that rejects every payload. -/
def wInvalidParse : PdfParser := fun _ => none

/-- Fetch oracle that always returns payload 5. -/
def wFetchOkEnv : AttemptEnv := { fetch := fun _ => .ok 5, delay := fun _ => 1 }

/-- Empty filesystem. -/
def cxFS : TdnetFS := fun _ => none

/-- Replay-pass trace of the always-failing run over `[cxItem]`. -/
def cxReplayTrace : List Event :=
  match run_download_phase cxConfig cxParse cxEnvFail [cxItem] cxFS with
  | .ok r => r.2.2.2.2
  | .error _ => []

/-- Retry-loop trace of the always-failing download of `cxItem`. -/
def cxPacingTrace : List Event :=
  (download_single_pdf cxConfig cxParse (cxEnvFail cxItem) cxItem cxFS).2.2

/-- Identity used as the concrete hash for evaluation. -/
def cxUid : String → String := fun s => s

/-- News oracle: every fetch yields the text "body", no store errors. -/
def cxNewsEnv : NewsEnv :=
  { fetchText := fun _ => some "body", delay := fun _ => 4,
    storeErr := fun _ => false }

/-- News oracle: every fetch yields the empty string, no store errors. -/
def cxEmptyTextEnv : NewsEnv :=
  { fetchText := fun _ => some "", delay := fun _ => 3,
    storeErr := fun _ => false }

/-- News oracle: every fetch returns `None`. -/
def wNoneTextEnv : NewsEnv :=
  { fetchText := fun _ => none, delay := fun _ => 3,
    storeErr := fun _ => false }

/-- News oracle: fetches succeed but the store step always raises. -/
def cxStoreErrEnv : NewsEnv :=
  { fetchText := fun _ => some "body", delay := fun _ => 3,
    storeErr := fun _ => true }

/-- Concrete feed entry. -/
def cxEntry : RssEntry := { title := "t", date := "d", link := "u" }

/-- Concrete feed entry used for the empty-text evaluation. -/
def cxEmptyEntry : RssEntry := { title := "T", date := "D", link := "w" }

/-- Empty news state: no articles, no index file. -/
def cxNewsState0 : NewsState := { articles := fun _ => none, index := none }

/-- State after processing two copies of the same entry (same canonical
URL) from the empty state. -/
def cxDupState : NewsState :=
  (processEntries cxUid cxNewsEnv "b" "s" "m" [cxEntry, cxEntry] 0
    cxNewsState0).1

/-- The index row both copies of `cxEntry` produce. -/
def cxDupRow : String := "u,t,d,s,b/s/m/u.json"

/-- State after processing an entry whose extracted text is empty. -/
def cxEmptyTextState : NewsState :=
  (process_entry cxUid cxEmptyTextEnv "b" "s" "m" 0 cxEmptyEntry
    cxNewsState0).1

/-! ## Helper lemmas: the per-item retry loop -/

/-- Validation re-reads exactly the bytes just persisted. -/
theorem validate_after_save (parse : PdfParser) (fs : TdnetFS) (c : Payload)
    (p : String) :
    validate_pdf parse (save_pdf fs c p) p = pdfContentValid parse c := by
  simp [validate_pdf, save_pdf, updateFS]

/-- The retry loop touches no path other than the item's own artifact
path. -/
theorem dsp_frame (cfg : Config) (parse : PdfParser) (aenv : AttemptEnv)
    (item : TdnetItem) :
    ∀ n k fs q, q ≠ pdfPath cfg item →
      (downloadSinglePdfAux cfg parse aenv item n k fs).2.1 q = fs q := by
  intro n
  induction n with
  | zero => intro k fs q _; rfl
  | succ n ih =>
      intro k fs q hq
      unfold downloadSinglePdfAux
      cases hf : aenv.fetch k with
      | err =>
          simpa [download_pdf, hf] using ih (k + 1) fs q hq
      | ok c =>
          simp only [download_pdf, hf]
          by_cases hv : validate_pdf parse
              (save_pdf fs c (pdfPath cfg item)) (pdfPath cfg item)
          · simp only [hv, if_true]
            simp [save_pdf, updateFS, hq]
          · simp only [hv, Bool.false_eq_true, if_false]
            rw [ih (k + 1) _ q hq]
            simp [removeFS, save_pdf, updateFS, hq]

/-- Every event of the retry loop's trace is either a fetch of the item's
own URL or a sleep. -/
theorem dsp_trace_mem (cfg : Config) (parse : PdfParser) (aenv : AttemptEnv)
    (item : TdnetItem) :
    ∀ n k fs e, e ∈ (downloadSinglePdfAux cfg parse aenv item n k fs).2.2 →
      e = Event.fetch item.document_url ∨ ∃ d, e = Event.sleep d := by
  intro n
  induction n with
  | zero => intro k fs e he; cases he
  | succ n ih =>
      intro k fs e he
      unfold downloadSinglePdfAux at he
      cases hf : aenv.fetch k with
      | err =>
          rw [show download_pdf aenv.fetch aenv.delay k item.document_url
              = (.error "RequestException", [.fetch item.document_url]) by
                simp [download_pdf, hf]] at he
          simp only [List.cons_append, List.nil_append, List.mem_cons] at he
          rcases he with h | h
          · exact Or.inl h
          · exact ih (k + 1) fs e h
      | ok c =>
          rw [show download_pdf aenv.fetch aenv.delay k item.document_url
              = (.ok c, [.fetch item.document_url, .sleep (aenv.delay k)]) by
                simp [download_pdf, hf]] at he
          by_cases hv : validate_pdf parse
              (save_pdf fs c (pdfPath cfg item)) (pdfPath cfg item)
          · simp only [hv, if_true] at he
            simp only [List.mem_cons, List.not_mem_nil, or_false] at he
            rcases he with h | h
            · exact Or.inl h
            · exact Or.inr ⟨aenv.delay k, h⟩
          · simp only [hv, Bool.false_eq_true, if_false,
              List.cons_append, List.nil_append, List.mem_cons] at he
            rcases he with h | h | h
            · exact Or.inl h
            · exact Or.inr ⟨aenv.delay k, h⟩
            · exact ih (k + 1) _ e h

/-- The trace of the retry loop contains no fetch of a different URL. -/
theorem dsp_count_ne (cfg : Config) (parse : PdfParser) (aenv : AttemptEnv)
    (item : TdnetItem) (n k : Nat) (fs : TdnetFS) (u : String)
    (hu : u ≠ item.document_url) :
    ((downloadSinglePdfAux cfg parse aenv item n k fs).2.2).count
      (Event.fetch u) = 0 := by
  rw [List.count_eq_zero]
  intro hmem
  rcases dsp_trace_mem cfg parse aenv item n k fs _ hmem with h | ⟨d, h⟩
  · exact hu (by injection h)
  · exact absurd h (by simp)

/-- When every attempt fails (fetch error, or a payload the validator
rejects), the loop returns `false`, fetches exactly once per remaining
iteration, and leaves no artifact at the item's path when none was there
before. -/
theorem dsp_fail (cfg : Config) (parse : PdfParser) (aenv : AttemptEnv)
    (item : TdnetItem)
    (hfail : ∀ j, attemptFailsB parse aenv j = true) :
    ∀ n k fs,
      (downloadSinglePdfAux cfg parse aenv item n k fs).1 = false ∧
      ((downloadSinglePdfAux cfg parse aenv item n k fs).2.2).count
        (Event.fetch item.document_url) = n ∧
      (fs (pdfPath cfg item) = none →
        (downloadSinglePdfAux cfg parse aenv item n k fs).2.1
          (pdfPath cfg item) = none) := by
  intro n
  induction n with
  | zero => intro k fs; exact ⟨rfl, rfl, fun h => h⟩
  | succ n ih =>
      intro k fs
      have hk := hfail k
      unfold attemptFailsB at hk
      cases hf : aenv.fetch k with
      | err =>
          have h1 := ih (k + 1) fs
          constructor
          · simpa [downloadSinglePdfAux, download_pdf, hf] using h1.1
          constructor
          · simpa [downloadSinglePdfAux, download_pdf, hf,
              List.count_cons_self] using h1.2.1
          · intro h0
            simpa [downloadSinglePdfAux, download_pdf, hf] using h1.2.2 h0
      | ok c =>
          rw [hf] at hk
          have hcv : pdfContentValid parse c = false := by
            simpa using hk
          have hv : validate_pdf parse
              (save_pdf fs c (pdfPath cfg item)) (pdfPath cfg item) = false := by
            rw [validate_after_save]; exact hcv
          have h1 := ih (k + 1) (removeFS (save_pdf fs c (pdfPath cfg item))
            (pdfPath cfg item))
          constructor
          · simpa [downloadSinglePdfAux, download_pdf, hf, hv] using h1.1
          constructor
          · have : (Event.sleep (aenv.delay k) == Event.fetch item.document_url)
                = false := by simp
            simpa [downloadSinglePdfAux, download_pdf, hf, hv,
              List.count_cons, this, List.count_cons_self] using h1.2.1
          · intro _
            have hrm : (removeFS (save_pdf fs c (pdfPath cfg item))
                (pdfPath cfg item)) (pdfPath cfg item) = none := by
              simp [removeFS]
            simpa [downloadSinglePdfAux, download_pdf, hf, hv]
              using h1.2.2 hrm

/-- With at least one iteration, the loop always performs a first fetch of
the item's URL. -/
theorem dsp_first_fetch (cfg : Config) (parse : PdfParser) (aenv : AttemptEnv)
    (item : TdnetItem) (n k : Nat) (fs : TdnetFS) (hn : 1 ≤ n) :
    Event.fetch item.document_url ∈
      (downloadSinglePdfAux cfg parse aenv item n k fs).2.2 := by
  match n, hn with
  | n + 1, _ =>
    unfold downloadSinglePdfAux
    cases hf : aenv.fetch k with
    | err => simp [download_pdf, hf]
    | ok c =>
        simp only [download_pdf, hf]
        by_cases hv : validate_pdf parse
            (save_pdf fs c (pdfPath cfg item)) (pdfPath cfg item)
        · simp [hv]
        · simp [hv]

/-! ## Helper lemmas: the batch download pass -/

/-- Specification of `process_downloads` when every company code is
non-empty: the pass completes, failed items come from the input list, only
eligible items' artifact paths are touched, every fetch in the trace
belongs to an eligible input item, and every eligible item is fetched at
least once when the retry budget is positive. -/
theorem pd_spec (cfg : Config) (parse : PdfParser)
    (env : TdnetItem → AttemptEnv) :
    ∀ (items : List TdnetItem) (fs : TdnetFS),
      (∀ j ∈ items, (j.company_code.data.getLast?).isSome = true) →
      ∃ failed fs' tr,
        process_downloads cfg parse env items fs = .ok (failed, fs', tr) ∧
        (∀ x ∈ failed, x ∈ items) ∧
        (∀ q, (∀ j ∈ items, q ≠ pdfPath cfg j) → fs' q = fs q) ∧
        (∀ u, Event.fetch u ∈ tr →
          ∃ j, j ∈ items ∧ j.document_url = u ∧
            j.company_code.data.getLast? = some '0') ∧
        (1 ≤ cfg.max_retries → ∀ j, j ∈ items →
          j.company_code.data.getLast? = some '0' →
          Event.fetch j.document_url ∈ tr) := by
  intro items
  induction items with
  | nil =>
      intro fs _
      exact ⟨[], fs, [], rfl, by simp, fun q _ => rfl, by simp, by simp⟩
  | cons it rest ih =>
      intro fs hne
      have hit := hne it (by simp)
      obtain ⟨c, hc⟩ : ∃ c, it.company_code.data.getLast? = some c := by
        cases h : it.company_code.data.getLast? with
        | none => rw [h] at hit; cases hit
        | some c => exact ⟨c, rfl⟩
      by_cases h0 : c = '0'
      · subst h0
        obtain ⟨failed, fs', tr, heq, hsub, hframe, htr, hfe⟩ :=
          ih (download_single_pdf cfg parse (env it) it fs).2.1
            (fun j hj => hne j (by simp [hj]))
        refine ⟨(if (download_single_pdf cfg parse (env it) it fs).1 then failed
            else it :: failed), fs',
          (download_single_pdf cfg parse (env it) it fs).2.2 ++ tr, ?_, ?_, ?_, ?_, ?_⟩
        · simp [process_downloads, hc, heq]
        · intro x hx
          by_cases hr1 : (download_single_pdf cfg parse (env it) it fs).1
          · rw [if_pos hr1] at hx
            simp [hsub x hx]
          · rw [if_neg hr1] at hx
            rcases List.mem_cons.mp hx with rfl | hx'
            · simp
            · simp [hsub x hx']
        · intro q hq
          rw [hframe q (fun j hj => hq j (by simp [hj]))]
          exact dsp_frame cfg parse (env it) it cfg.max_retries 0 fs q
            (hq it (by simp))
        · intro u hu
          rcases List.mem_append.mp hu with h | h
          · rcases dsp_trace_mem cfg parse (env it) it cfg.max_retries 0 fs _ h
              with he | ⟨d, he⟩
            · injection he with h'
              exact ⟨it, by simp, h'.symm, hc⟩
            · exact absurd he (by simp)
          · obtain ⟨j, hj, hju, hje⟩ := htr u h
            exact ⟨j, by simp [hj], hju, hje⟩
        · intro hmr j hj hje
          rcases List.mem_cons.mp hj with rfl | hj'
          · exact List.mem_append.mpr
              (Or.inl (dsp_first_fetch cfg parse (env j) j cfg.max_retries 0 fs hmr))
          · exact List.mem_append.mpr (Or.inr (hfe hmr j hj' hje))
      · obtain ⟨failed, fs', tr, heq, hsub, hframe, htr, hfe⟩ :=
          ih fs (fun j hj => hne j (by simp [hj]))
        refine ⟨failed, fs', tr, ?_, ?_, ?_, ?_, ?_⟩
        · simp [process_downloads, hc, h0, heq]
        · intro x hx; simp [hsub x hx]
        · intro q hq; exact hframe q (fun j hj => hq j (by simp [hj]))
        · intro u hu
          obtain ⟨j, hj, hju, hje⟩ := htr u hu
          exact ⟨j, by simp [hj], hju, hje⟩
        · intro hmr j hj hje
          rcases List.mem_cons.mp hj with rfl | hj'
          · rw [hje] at hc
            injection hc with hc'
            exact absurd hc'.symm h0
          · exact hfe hmr j hj' hje

/-- Specification of a batch pass over `pre ++ it :: post` where `it` is an
always-failing eligible item whose URL and artifact path are not shared by
any other item of the list: the pass completes, `it` ends in the failure
list, its URL is fetched exactly `max_retries` times, and no artifact for
it remains. -/
theorem pd_target (cfg : Config) (parse : PdfParser)
    (env : TdnetItem → AttemptEnv) (it : TdnetItem)
    (helig : it.company_code.data.getLast? = some '0')
    (hfail : ∀ k, attemptFailsB parse (env it) k = true) :
    ∀ (pre post : List TdnetItem) (fs : TdnetFS),
      (∀ j ∈ pre ++ post, (j.company_code.data.getLast?).isSome = true) →
      (∀ j ∈ pre ++ post, j.document_url ≠ it.document_url) →
      (∀ j ∈ pre ++ post, pdfPath cfg j ≠ pdfPath cfg it) →
      fs (pdfPath cfg it) = none →
      ∃ fpre fpost fs' tr,
        process_downloads cfg parse env (pre ++ it :: post) fs
          = .ok (fpre ++ it :: fpost, fs', tr) ∧
        (∀ x ∈ fpre, x ∈ pre) ∧ (∀ x ∈ fpost, x ∈ post) ∧
        tr.count (Event.fetch it.document_url) = cfg.max_retries ∧
        fs' (pdfPath cfg it) = none ∧
        (∀ q, q ≠ pdfPath cfg it → (∀ j ∈ pre ++ post, q ≠ pdfPath cfg j) →
          fs' q = fs q) := by
  intro pre
  induction pre with
  | nil =>
      intro post fs hne hurl hpath hfs
      simp only [List.nil_append] at hne hurl hpath
      have hr := dsp_fail cfg parse (env it) it hfail cfg.max_retries 0 fs
      obtain ⟨fpost, fs', tr2, heq, hsub, hframe, htr, _⟩ :=
        pd_spec cfg parse env post
          (download_single_pdf cfg parse (env it) it fs).2.1 hne
      refine ⟨[], fpost, fs', (download_single_pdf cfg parse (env it) it fs).2.2
        ++ tr2, ?_, by simp, hsub, ?_, ?_, ?_⟩
      · have hr1 : (download_single_pdf cfg parse (env it) it fs).1 = false := hr.1
        simp [process_downloads, helig, heq, hr1]
      · have h2 : tr2.count (Event.fetch it.document_url) = 0 := by
          rw [List.count_eq_zero]
          intro hmem
          obtain ⟨j, hj, hju, _⟩ := htr it.document_url hmem
          exact hurl j hj hju
        rw [List.count_append, h2, Nat.add_zero]
        exact hr.2.1
      · rw [hframe (pdfPath cfg it) (fun j hj => (hpath j hj).symm)]
        exact hr.2.2 hfs
      · intro q hq1 hq2
        rw [hframe q hq2]
        exact dsp_frame cfg parse (env it) it cfg.max_retries 0 fs q hq1
  | cons p pre ih =>
      intro post fs hne hurl hpath hfs
      have hp := hne p (by simp)
      obtain ⟨c, hc⟩ : ∃ c, p.company_code.data.getLast? = some c := by
        cases h : p.company_code.data.getLast? with
        | none => rw [h] at hp; cases hp
        | some c => exact ⟨c, rfl⟩
      by_cases h0 : c = '0'
      · subst h0
        have hpp : pdfPath cfg it ≠ pdfPath cfg p :=
          fun h => hpath p (by simp) h.symm
        have hfsmid : (download_single_pdf cfg parse (env p) p fs).2.1
            (pdfPath cfg it) = none := by
          show (downloadSinglePdfAux cfg parse (env p) p
            cfg.max_retries 0 fs).2.1 (pdfPath cfg it) = none
          rw [dsp_frame cfg parse (env p) p cfg.max_retries 0 fs _ hpp]
          exact hfs
        obtain ⟨fpre, fpost, fs', tr, heq, hsubpre, hsubpost, hcount, hfs', hframe⟩ :=
          ih post (download_single_pdf cfg parse (env p) p fs).2.1
            (fun j hj => hne j (by simp [List.mem_append] at hj ⊢; tauto))
            (fun j hj => hurl j (by simp [List.mem_append] at hj ⊢; tauto))
            (fun j hj => hpath j (by simp [List.mem_append] at hj ⊢; tauto))
            hfsmid
        refine ⟨(if (download_single_pdf cfg parse (env p) p fs).1 then fpre
            else p :: fpre), fpost, fs',
          (download_single_pdf cfg parse (env p) p fs).2.2 ++ tr, ?_, ?_,
          hsubpost, ?_, hfs', ?_⟩
        · by_cases hr1 : (download_single_pdf cfg parse (env p) p fs).1
          · simp [process_downloads, hc, heq, hr1]
          · simp [process_downloads, hc, heq, hr1]
        · intro x hx
          by_cases hr1 : (download_single_pdf cfg parse (env p) p fs).1
          · rw [if_pos hr1] at hx
            simp [hsubpre x hx]
          · rw [if_neg hr1] at hx
            rcases List.mem_cons.mp hx with rfl | hx'
            · simp
            · simp [hsubpre x hx']
        · have h0c : ((download_single_pdf cfg parse (env p) p fs).2.2).count
              (Event.fetch it.document_url) = 0 :=
            dsp_count_ne cfg parse (env p) p cfg.max_retries 0 fs
              it.document_url (fun h => hurl p (by simp) h.symm)
          rw [List.count_append, h0c, hcount, Nat.zero_add]
        · intro q hq1 hq2
          rw [hframe q hq1 (fun j hj => hq2 j
              (by simp [List.mem_append] at hj ⊢; tauto))]
          exact dsp_frame cfg parse (env p) p cfg.max_retries 0 fs q
            (hq2 p (by simp))
      · obtain ⟨fpre, fpost, fs', tr, heq, hsubpre, hsubpost, hcount, hfs', hframe⟩ :=
          ih post fs
            (fun j hj => hne j (by simp [List.mem_append] at hj ⊢; tauto))
            (fun j hj => hurl j (by simp [List.mem_append] at hj ⊢; tauto))
            (fun j hj => hpath j (by simp [List.mem_append] at hj ⊢; tauto))
            hfs
        refine ⟨fpre, fpost, fs', tr, ?_, ?_, hsubpost, hcount, hfs', ?_⟩
        · simp [process_downloads, hc, h0, heq]
        · intro x hx; simp [hsubpre x hx]
        · intro q hq1 hq2
          exact hframe q hq1 (fun j hj => hq2 j
            (by simp [List.mem_append] at hj ⊢; tauto))

/-! ## Helper lemmas: the news entry loop -/

/-- Entry with a failed fetch: `continue` is taken, skipping both the
store and the trailing sleep. -/
theorem process_entry_none (uid : String → String) (env : NewsEnv)
    (base source ym : String) (k : Nat) (e : RssEntry) (st : NewsState)
    (hf : env.fetchText e.link = none) :
    process_entry uid env base source ym k e st = (st, [.nfetch e.link]) := by
  simp [process_entry, hf]

/-- Entry whose store step raises: the exception is absorbed, the state is
unchanged, and the trailing sleep still happens. -/
theorem process_entry_err (uid : String → String) (env : NewsEnv)
    (base source ym : String) (k : Nat) (e : RssEntry) (st : NewsState)
    (t : String) (hf : env.fetchText e.link = some t)
    (hs : env.storeErr k = true) :
    process_entry uid env base source ym k e st
      = (st, [.nfetch e.link, .nsleep (env.delay k)]) := by
  simp [process_entry, hf, processEntryBody, hs]

/-- Entry processed successfully: article written, index row appended,
trailing sleep taken. -/
theorem process_entry_ok (uid : String → String) (env : NewsEnv)
    (base source ym : String) (k : Nat) (e : RssEntry) (st : NewsState)
    (t : String) (hf : env.fetchText e.link = some t)
    (hs : env.storeErr k = false) :
    process_entry uid env base source ym k e st
      = (save_index_to_csv
          (save_article_to_json st (articlePath base source ym (uid e.link))
            ⟨uid e.link, e.title, e.date, e.link, t, source⟩)
          (uid e.link) e.title e.date source
          (articlePath base source ym (uid e.link)),
        [.nfetch e.link, .nsleep (env.delay k)]) := by
  simp [process_entry, hf, processEntryBody, hs]

/-- The article map produced by the entry loop is the initial map with the
loop's write sequence applied. -/
theorem processEntries_articles (uid : String → String) (env : NewsEnv)
    (base source ym : String) :
    ∀ (entries : List RssEntry) (k : Nat) (st : NewsState),
      (processEntries uid env base source ym entries k st).1.articles
        = applyOps st.articles (writeOps uid env base source ym entries k) := by
  intro entries
  induction entries with
  | nil => intro k st; rfl
  | cons e rest ih =>
      intro k st
      simp only [processEntries]
      cases hf : env.fetchText e.link with
      | none =>
          rw [process_entry_none uid env base source ym k e st hf]
          rw [ih]
          simp [writeOps, hf]
      | some t =>
          cases hs : env.storeErr k with
          | true =>
              rw [process_entry_err uid env base source ym k e st t hf hs]
              rw [ih]
              simp [writeOps, hf, hs]
          | false =>
              rw [process_entry_ok uid env base source ym k e st t hf hs]
              rw [ih]
              simp [writeOps, hf, hs, applyOps, save_index_to_csv,
                save_article_to_json]

/-- A key never written by the op list keeps its initial value. -/
theorem applyOps_unwritten :
    ∀ (ops : List (String × ArticleData)) (f : String → Option ArticleData)
      (q : String), (∀ pv ∈ ops, pv.1 ≠ q) → applyOps f ops q = f q := by
  intro ops
  induction ops with
  | nil => intro f q _; rfl
  | cons pv ops ih =>
      intro f q h
      obtain ⟨p, v⟩ := pv
      simp only [applyOps]
      rw [ih _ q (fun x hx => h x (by simp [hx]))]
      simp only [updateArticles]
      exact if_neg (fun hqp => h (p, v) (by simp) hqp.symm)

/-- Applying the same op list from two maps that agree outside the written
keys yields the same map. -/
theorem applyOps_congr :
    ∀ (ops : List (String × ArticleData)) (f g : String → Option ArticleData),
      (∀ q, f q = g q ∨ ∃ pv, pv ∈ ops ∧ pv.1 = q) →
      ∀ q, applyOps f ops q = applyOps g ops q := by
  intro ops
  induction ops with
  | nil =>
      intro f g h q
      rcases h q with h' | ⟨pv, hpv, _⟩
      · exact h'
      · cases hpv
  | cons pv ops ih =>
      intro f g h q
      obtain ⟨p, v⟩ := pv
      simp only [applyOps]
      apply ih
      intro q'
      by_cases hq' : q' = p
      · left; subst hq'; simp [updateArticles]
      · rcases h q' with h' | ⟨pv', hpv', hpq⟩
        · left
          simp only [updateArticles]
          rw [if_neg hq', if_neg hq']
          exact h'
        · rcases List.mem_cons.mp hpv' with rfl | hm
          · exact absurd hpq.symm hq'
          · exact Or.inr ⟨pv', hm, hpq⟩

/-- Replaying an op list over its own result changes nothing: each key
ends at its last written value either way. -/
theorem applyOps_idem (f : String → Option ArticleData)
    (ops : List (String × ArticleData)) (q : String) :
    applyOps (applyOps f ops) ops q = applyOps f ops q := by
  refine applyOps_congr ops (applyOps f ops) f ?_ q
  intro q'
  by_cases h' : ∃ pv, pv ∈ ops ∧ pv.1 = q'
  · exact Or.inr h'
  · exact Or.inl (applyOps_unwritten ops f q'
      (fun pv hpv hpq => h' ⟨pv, hpv, hpq⟩))

/-- A newline-terminated row followed by anything is a non-empty string. -/
theorem append_newline_ne (r rest : String) : r ++ "\n" ++ rest ≠ "" := by
  intro h
  have h' := congrArg String.data h
  simp [String.data_append] at h'

/-- Entry loop over an existing index file: the content is extended by
exactly the rows of the processed entries, with no header. -/
theorem processEntries_index_some (uid : String → String) (env : NewsEnv)
    (base source ym : String) :
    ∀ (entries : List RssEntry) (k : Nat) (st : NewsState) (s : String),
      st.index = some s →
      (processEntries uid env base source ym entries k st).1.index
        = some (s ++ rowsOf uid env base source ym entries k) := by
  intro entries
  induction entries with
  | nil =>
      intro k st s hidx
      simpa [processEntries, rowsOf] using hidx
  | cons e rest ih =>
      intro k st s hidx
      simp only [processEntries]
      cases hf : env.fetchText e.link with
      | none =>
          rw [process_entry_none uid env base source ym k e st hf]
          dsimp only
          rw [ih (k + 1) st s hidx]
          simp [rowsOf, hf, String.empty_append]
      | some t =>
          cases hs : env.storeErr k with
          | true =>
              rw [process_entry_err uid env base source ym k e st t hf hs]
              dsimp only
              rw [ih (k + 1) st s hidx]
              simp [rowsOf, hf, hs, String.empty_append]
          | false =>
              rw [process_entry_ok uid env base source ym k e st t hf hs]
              dsimp only
              rw [ih (k + 1) _ (s ++ formatIndexRow (uid e.link) e.title
                  e.date source (articlePath base source ym (uid e.link)) ++ "\n")
                (by simp [save_index_to_csv, save_article_to_json, hidx])]
              simp only [rowsOf, hf, hs, Bool.false_eq_true, if_false]
              rw [String.append_assoc, String.append_assoc, String.append_assoc]

/-- Entry loop over a missing index file: the file appears, with the
header line first, exactly when at least one entry appends a row. -/
theorem processEntries_index_none (uid : String → String) (env : NewsEnv)
    (base source ym : String) :
    ∀ (entries : List RssEntry) (k : Nat) (st : NewsState),
      st.index = none →
      (processEntries uid env base source ym entries k st).1.index
        = if rowsOf uid env base source ym entries k = "" then none
          else some (indexHeader ++ "\n"
            ++ rowsOf uid env base source ym entries k) := by
  intro entries
  induction entries with
  | nil =>
      intro k st hidx
      simpa [processEntries, rowsOf] using hidx
  | cons e rest ih =>
      intro k st hidx
      simp only [processEntries]
      cases hf : env.fetchText e.link with
      | none =>
          rw [process_entry_none uid env base source ym k e st hf]
          dsimp only
          rw [ih (k + 1) st hidx]
          simp [rowsOf, hf, String.empty_append]
      | some t =>
          cases hs : env.storeErr k with
          | true =>
              rw [process_entry_err uid env base source ym k e st t hf hs]
              dsimp only
              rw [ih (k + 1) st hidx]
              simp [rowsOf, hf, hs, String.empty_append]
          | false =>
              rw [process_entry_ok uid env base source ym k e st t hf hs]
              dsimp only
              rw [processEntries_index_some uid env base source ym rest (k + 1)
                _ (indexHeader ++ "\n" ++ formatIndexRow (uid e.link) e.title
                  e.date source (articlePath base source ym (uid e.link)) ++ "\n")
                (by simp [save_index_to_csv, save_article_to_json, hidx,
                  String.empty_append])]
              simp only [rowsOf, hf, hs, Bool.false_eq_true, if_false]
              rw [if_neg (append_newline_ne _ _)]
              simp [String.append_assoc]

/-- The entry loop only ever appends to the index file: the prior content
is a prefix of the new content. -/
theorem processEntries_index_grows (uid : String → String) (env : NewsEnv)
    (base source ym : String) (entries : List RssEntry) (k : Nat)
    (st : NewsState) :
    ∃ tail,
      ((processEntries uid env base source ym entries k st).1.index.getD "")
        = (st.index.getD "") ++ tail := by
  cases hidx : st.index with
  | some s =>
      refine ⟨rowsOf uid env base source ym entries k, ?_⟩
      rw [processEntries_index_some uid env base source ym entries k st s hidx]
      simp
  | none =>
      rw [processEntries_index_none uid env base source ym entries k st hidx]
      by_cases h : rowsOf uid env base source ym entries k = ""
      · exact ⟨"", by simp [h, String.append_empty]⟩
      · exact ⟨indexHeader ++ "\n" ++ rowsOf uid env base source ym entries k,
          by simp [h, String.empty_append]⟩

/-! ## Claim theorems -/

/-- Claim C7: the index file is only ever appended to — a
`save_index_to_csv` call yields exactly the prior content followed by the
(possibly header-prefixed) new row, and a whole entry-loop run preserves
the prior content as a prefix — and the header row is written if and only
if the file does not exist at the existence check performed immediately
before the write. -/
theorem c7_index_append_only :
    (∀ (st : NewsState) (aid title date source fpath : String),
      (save_index_to_csv st aid title date source fpath).index
        = some ((st.index.getD "")
            ++ (if st.index.isSome then "" else indexHeader ++ "\n")
            ++ formatIndexRow aid title date source fpath ++ "\n")) ∧
    (∀ (uid : String → String) (env : NewsEnv) (base source ym : String)
      (entries : List RssEntry) (k : Nat) (st : NewsState),
      ∃ tail,
        ((processEntries uid env base source ym entries k st).1.index.getD "")
          = (st.index.getD "") ++ tail) := by
  constructor
  · intro st aid title date source fpath
    cases h : st.index <;>
      simp [save_index_to_csv, h, String.empty_append, String.append_empty,
        String.append_assoc]
  · intro uid env base source ym entries k st
    exact processEntries_index_grows uid env base source ym entries k st

/-- Claim C10: every appended index line is the plain comma join of the
five field values followed by a newline — no CSV quoting or escaping — so
a title containing a comma produces a line that splits back into six
fields instead of the declared five. -/
theorem c10_naive_csv_row :
    (∀ (st : NewsState) (aid title date source fpath : String),
      (save_index_to_csv st aid title date source fpath).index
        = some ((st.index.getD "")
            ++ (if st.index.isSome then "" else indexHeader ++ "\n")
            ++ (aid ++ "," ++ title ++ "," ++ date ++ "," ++ source ++ ","
              ++ fpath ++ "\n"))) ∧
    (csvFields (formatIndexRow "id1" "Title, with comma" "2024" "src"
      "p.json")).length = 6 ∧
    (csvFields (formatIndexRow "id1" "Title, with comma" "2024" "src"
      "p.json")).length ≠ 5 := by
  refine ⟨?_, by decide, by decide⟩
  intro st aid title date source fpath
  cases h : st.index <;>
    simp [save_index_to_csv, formatIndexRow, h, String.empty_append,
      String.append_empty, String.append_assoc]

/-- Claim C9: `process_downloads` requires every item's company code to be
a non-empty string: on a concrete batch whose second item has an empty
`company_code`, the first item is downloaded and then the eligibility
check `item["company_code"][-1]` raises `IndexError`, aborting the whole
batch pass. -/
theorem c9_empty_code_aborts :
    process_downloads cxConfig cxParse cxEnvOk [cxGoodItem, cxEmptyCodeItem]
      cxFS = .error "IndexError" := rfl

/-- Claim C2: a fetched payload that fails validation leaves no artifact:
in the PDF pipeline the written file is deleted before every retry and
before giving up, so after the retry loop no file exists at the item's
final path (and no other path was touched); in the news pipeline a fetch
that yields no payload stores nothing and appends no index row. -/
theorem c2_validation_gating :
    (∀ (cfg : Config) (parse : PdfParser) (aenv : AttemptEnv)
      (item : TdnetItem) (n k : Nat) (fs : TdnetFS),
      (∀ j c, aenv.fetch j = .ok c → pdfContentValid parse c = false) →
      fs (pdfPath cfg item) = none →
      (downloadSinglePdfAux cfg parse aenv item n k fs).1 = false ∧
      (downloadSinglePdfAux cfg parse aenv item n k fs).2.1
        (pdfPath cfg item) = none ∧
      (∀ q, q ≠ pdfPath cfg item →
        (downloadSinglePdfAux cfg parse aenv item n k fs).2.1 q = fs q)) ∧
    (∀ (uid : String → String) (env : NewsEnv) (base source ym : String)
      (k : Nat) (e : RssEntry) (st : NewsState),
      env.fetchText e.link = none →
      process_entry uid env base source ym k e st
        = (st, [.nfetch e.link])) := by
  constructor
  · intro cfg parse aenv item n k fs hinv hfs
    have hfail : ∀ j, attemptFailsB parse aenv j = true := by
      intro j
      unfold attemptFailsB
      cases hf : aenv.fetch j with
      | err => rfl
      | ok c => simp [hinv j c hf]
    have h := dsp_fail cfg parse aenv item hfail n k fs
    exact ⟨h.1, h.2.2 hfs, fun q hq => dsp_frame cfg parse aenv item n k fs q hq⟩
  · intro uid env base source ym k e st hf
    exact process_entry_none uid env base source ym k e st hf

/-- Claim C2, instantiated: two attempts at an always-invalid payload end
in failure with no artifact at the item's path, and a news entry whose
fetch returns `None` leaves the state untouched with no sleep. -/
theorem c2_validation_gating_witness :
    (downloadSinglePdfAux cxConfig wInvalidParse wFetchOkEnv cxItem 2 0
      cxFS).1 = false ∧
    (downloadSinglePdfAux cxConfig wInvalidParse wFetchOkEnv cxItem 2 0
      cxFS).2.1 (pdfPath cxConfig cxItem) = none ∧
    process_entry cxUid wNoneTextEnv "b" "s" "m" 0 cxEntry cxNewsState0
      = (cxNewsState0, [.nfetch "u"]) := by
  have h := c2_validation_gating.1 cxConfig wInvalidParse wFetchOkEnv cxItem
    2 0 cxFS (fun j c _ => rfl) rfl
  exact ⟨h.1, h.2.1, c2_validation_gating.2 cxUid wNoneTextEnv "b" "s" "m" 0
    cxEntry cxNewsState0 rfl⟩

/-- Claim C8: over a batch whose company codes are all non-empty, with a
positive retry budget, a URL is fetched if and only if it belongs to an
item whose company code ends in the digit 0; excluded items trigger no
fetch at all. -/
theorem c8_eligibility_filter (cfg : Config) (parse : PdfParser)
    (env : TdnetItem → AttemptEnv) (items : List TdnetItem) (fs : TdnetFS)
    (hne : ∀ j ∈ items, (j.company_code.data.getLast?).isSome = true)
    (hmr : 1 ≤ cfg.max_retries) :
    ∃ failed fs' tr,
      process_downloads cfg parse env items fs = .ok (failed, fs', tr) ∧
      ∀ u, (Event.fetch u ∈ tr ↔
        ∃ j, j ∈ items ∧ j.document_url = u ∧
          j.company_code.data.getLast? = some '0') := by
  obtain ⟨failed, fs', tr, heq, _, _, htr, hfe⟩ :=
    pd_spec cfg parse env items fs hne
  refine ⟨failed, fs', tr, heq, fun u => ⟨?_, ?_⟩⟩
  · intro hu
    obtain ⟨j, hj, hju, hje⟩ := htr u hu
    exact ⟨j, hj, hju, hje⟩
  · rintro ⟨j, hj, rfl, hje⟩
    exact hfe hmr j hj hje

/-- Claim C8, instantiated on a three-item batch where two items have a
company code ending in 0 and one does not: the eligible URLs are fetched
and the ineligible one is not. -/
theorem c8_eligibility_filter_witness :
    ∃ failed fs' tr,
      process_downloads cxConfig cxParse cxEnvFail
        [cxItem, cxGoodItem, cxIneligibleItem] cxFS = .ok (failed, fs', tr) ∧
      Event.fetch "docs/1230.pdf" ∈ tr ∧
      Event.fetch "docs/4560.pdf" ∈ tr ∧
      Event.fetch "docs/7771.pdf" ∉ tr := by
  obtain ⟨failed, fs', tr, heq, hiff⟩ :=
    c8_eligibility_filter cxConfig cxParse cxEnvFail
      [cxItem, cxGoodItem, cxIneligibleItem] cxFS (by decide) (by decide)
  refine ⟨failed, fs', tr, heq, ?_, ?_, ?_⟩
  · exact (hiff _).mpr ⟨cxItem, by simp, rfl, by decide⟩
  · exact (hiff _).mpr ⟨cxGoodItem, by simp, rfl, by decide⟩
  · intro hmem
    obtain ⟨j, hj, hju, hje⟩ := (hiff "docs/7771.pdf").mp hmem
    simp only [List.mem_cons, List.not_mem_nil, or_false] at hj
    rcases hj with rfl | rfl | rfl
    · exact absurd hju (by decide)
    · exact absurd hju (by decide)
    · exact absurd hje (by decide)

/-- Claim C4, counterexample: with a retry budget of two and a fetch that
always raises, the retry loop performs two back-to-back fetches of the
same URL with no delay between them, refuting the claim that a bounded
delay follows every fetch attempt, failed or not. -/
theorem c4_pacing_counterexample :
    cxPacingTrace
      = [Event.fetch "docs/1230.pdf", Event.fetch "docs/1230.pdf"] ∧
    pacedBetweenFetches cxPacingTrace = false := by
  exact ⟨by decide, by decide⟩

/-- Claim C4 (amended): in the PDF pipeline the bounded randomized delay
is taken immediately after each successful fetch only — a failed fetch
raises before the sleep, so the next attempt follows with no delay; in the
news pipeline a delay within the bounded range follows every entry whose
fetch produced a payload, while an entry whose fetch returned `None` is
skipped with no delay at all. -/
theorem c4_pacing_after_success :
    (∀ (cfg : Config) (fetchO : Nat → FetchOutcome) (delay : Nat → Nat)
      (k : Nat) (url : String),
      (∀ j, cfg.download_delay.1 ≤ delay j ∧ delay j ≤ cfg.download_delay.2) →
      (∃ c, fetchO k = .ok c ∧
        download_pdf fetchO delay k url
          = (.ok c, [.fetch url, .sleep (delay k)]) ∧
        cfg.download_delay.1 ≤ delay k ∧ delay k ≤ cfg.download_delay.2) ∨
      (fetchO k = .err ∧
        download_pdf fetchO delay k url
          = (.error "RequestException", [.fetch url]))) ∧
    (∀ (uid : String → String) (env : NewsEnv) (base source ym : String)
      (k : Nat) (e : RssEntry) (st : NewsState),
      (∀ j, 3 ≤ env.delay j ∧ env.delay j ≤ 5) →
      (env.fetchText e.link = none ∧
        (process_entry uid env base source ym k e st).2
          = [.nfetch e.link]) ∨
      (∃ t, env.fetchText e.link = some t ∧
        (process_entry uid env base source ym k e st).2
          = [.nfetch e.link, .nsleep (env.delay k)] ∧
        3 ≤ env.delay k ∧ env.delay k ≤ 5)) := by
  constructor
  · intro cfg fetchO delay k url hd
    cases hf : fetchO k with
    | err => exact Or.inr ⟨rfl, by simp [download_pdf, hf]⟩
    | ok c =>
        exact Or.inl ⟨c, rfl, by simp [download_pdf, hf], (hd k).1, (hd k).2⟩
  · intro uid env base source ym k e st hd
    cases hf : env.fetchText e.link with
    | none =>
        refine Or.inl ⟨rfl, ?_⟩
        rw [process_entry_none uid env base source ym k e st hf]
    | some t =>
        refine Or.inr ⟨t, rfl, ?_, (hd k).1, (hd k).2⟩
        cases hs : env.storeErr k with
        | true => rw [process_entry_err uid env base source ym k e st t hf hs]
        | false => rw [process_entry_ok uid env base source ym k e st t hf hs]

/-- Claim C4 (amended), instantiated: a failing fetch produces no sleep
event, and a processed news entry ends with its in-range sleep. -/
theorem c4_pacing_after_success_witness :
    download_pdf (fun _ => FetchOutcome.err) (fun _ => 2) 0 "docs/1230.pdf"
      = (.error "RequestException", [.fetch "docs/1230.pdf"]) ∧
    (process_entry cxUid cxNewsEnv "b" "s" "m" 0 cxEntry cxNewsState0).2
      = [.nfetch "u", .nsleep 4] := by
  constructor
  · rcases c4_pacing_after_success.1 cxConfig (fun _ => FetchOutcome.err)
      (fun _ => 2) 0 "docs/1230.pdf"
      (fun _ => show (1 : Nat) ≤ 2 ∧ (2 : Nat) ≤ 3 by exact ⟨by decide, by decide⟩)
      with ⟨c, hc, _⟩ | ⟨_, h⟩
    · simp at hc
    · exact h
  · rcases c4_pacing_after_success.2 cxUid cxNewsEnv "b" "s" "m" 0 cxEntry
      cxNewsState0
      (fun _ => show (3 : ℚ) ≤ 4 ∧ (4 : ℚ) ≤ 5 by exact ⟨by decide, by decide⟩)
      with ⟨hf, _⟩ | ⟨t, _, h, _⟩
    · simp [cxNewsEnv] at hf
    · exact h

/-- Claim C5, counterexample: an entry whose extracted text is the empty
string is stored and indexed — the code treats only `None` as invalid — so
both an artifact and an index row exist for an empty-text item, refuting
the claim that neither is ever created. -/
theorem c5_empty_text_counterexample :
    cxEmptyTextState.articles (articlePath "b" "s" "m" "w")
      = some ⟨"w", "T", "D", "w", "", "s"⟩ ∧
    cxEmptyTextState.index
      = some (indexHeader ++ "\n" ++ "w,T,D,s,b/s/m/w.json" ++ "\n") := by
  exact ⟨by decide, by decide⟩

/-- Claim C5 (amended): news validation rejects exactly a `None` payload
(an exception during fetch or extraction): such an entry stores nothing
and appends no index row, while any returned text — the empty string
included — is stored at the derived path and indexed. -/
theorem c5_none_is_only_invalid :
    (∀ (uid : String → String) (env : NewsEnv) (base source ym : String)
      (k : Nat) (e : RssEntry) (st : NewsState),
      env.fetchText e.link = none →
      (process_entry uid env base source ym k e st).1 = st) ∧
    (∀ (uid : String → String) (env : NewsEnv) (base source ym : String)
      (k : Nat) (e : RssEntry) (st : NewsState) (t : String),
      env.fetchText e.link = some t → env.storeErr k = false →
      (process_entry uid env base source ym k e st).1.articles
          (articlePath base source ym (uid e.link))
        = some ⟨uid e.link, e.title, e.date, e.link, t, source⟩ ∧
      ∃ s, (process_entry uid env base source ym k e st).1.index = some s ∧
        ∃ head, s = head ++ formatIndexRow (uid e.link) e.title e.date source
          (articlePath base source ym (uid e.link)) ++ "\n") := by
  constructor
  · intro uid env base source ym k e st hf
    rw [process_entry_none uid env base source ym k e st hf]
  · intro uid env base source ym k e st t hf hs
    rw [process_entry_ok uid env base source ym k e st t hf hs]
    constructor
    · simp [save_index_to_csv, save_article_to_json, updateArticles]
    · exact ⟨_, rfl, _, rfl⟩

/-- Claim C5 (amended), instantiated: a `None` fetch leaves the state
unchanged, and an empty-string text is stored as an artifact. -/
theorem c5_none_is_only_invalid_witness :
    (process_entry cxUid wNoneTextEnv "b" "s" "m" 0 cxEntry cxNewsState0).1
      = cxNewsState0 ∧
    (process_entry cxUid cxEmptyTextEnv "b" "s" "m" 0 cxEmptyEntry
      cxNewsState0).1.articles (articlePath "b" "s" "m" "w")
      = some ⟨"w", "T", "D", "w", "", "s"⟩ := by
  constructor
  · exact c5_none_is_only_invalid.1 cxUid wNoneTextEnv "b" "s" "m" 0 cxEntry
      cxNewsState0 rfl
  · exact (c5_none_is_only_invalid.2 cxUid cxEmptyTextEnv "b" "s" "m" 0
      cxEmptyEntry cxNewsState0 "" rfl rfl).1

/-- Claim C6, counterexample to its final clause: a batch containing an
item with an empty company code does not complete — the eligibility check
raises `IndexError` before any fetch — so a run over an arbitrary item
list is not guaranteed to finish. -/
theorem c6_run_completes_counterexample :
    process_downloads cxConfig cxParse cxEnvFail [cxEmptyOnlyItem] cxFS
      = .error "IndexError" := rfl

/-- Claim C6 (amended): every error raised during an item's fetch, store
or validation is absorbed at the controller boundary — the PDF batch
completes with an ordinary result for every item list whose company codes
are non-empty, and a news entry whose store step raises is absorbed with
the prior state kept and the loop continuing over the remaining entries.
The eligibility check itself sits outside the controller, so an empty
company code still aborts the PDF batch. -/
theorem c6_errors_absorbed :
    (∀ (cfg : Config) (parse : PdfParser) (env : TdnetItem → AttemptEnv)
      (items : List TdnetItem) (fs : TdnetFS),
      (∀ j ∈ items, (j.company_code.data.getLast?).isSome = true) →
      ∃ r, process_downloads cfg parse env items fs = .ok r) ∧
    (∀ (uid : String → String) (env : NewsEnv) (base source ym : String)
      (k : Nat) (e : RssEntry) (rest : List RssEntry) (st : NewsState)
      (t : String),
      env.fetchText e.link = some t → env.storeErr k = true →
      processEntryBody uid env base source ym k e t st
        = .error ("IOError", st) ∧
      processEntries uid env base source ym (e :: rest) k st
        = ((processEntries uid env base source ym rest (k + 1) st).1,
          [.nfetch e.link, .nsleep (env.delay k)]
            ++ (processEntries uid env base source ym rest (k + 1) st).2)) := by
  constructor
  · intro cfg parse env items fs hne
    obtain ⟨failed, fs', tr, heq, _⟩ := pd_spec cfg parse env items fs hne
    exact ⟨(failed, fs', tr), heq⟩
  · intro uid env base source ym k e rest st t hf hs
    constructor
    · simp [processEntryBody, hs]
    · simp only [processEntries]
      rw [process_entry_err uid env base source ym k e st t hf hs]

/-- Claim C6 (amended), instantiated: a batch with non-empty codes whose
fetches all fail still returns an ordinary result, and a raising store
step yields the carried-state error that the handler absorbs. -/
theorem c6_errors_absorbed_witness :
    (∃ r, process_downloads cxConfig cxParse cxEnvFail
      [cxItem, cxIneligibleItem] cxFS = .ok r) ∧
    processEntryBody cxUid cxStoreErrEnv "b" "s" "m" 0 cxEntry "body"
      cxNewsState0 = .error ("IOError", cxNewsState0) := by
  constructor
  · exact c6_errors_absorbed.1 cxConfig cxParse cxEnvFail _ cxFS (by decide)
  · exact (c6_errors_absorbed.2 cxUid cxStoreErrEnv "b" "s" "m" 0 cxEntry []
      cxNewsState0 "body" rfl rfl).1

/-- Claim C3, counterexample: two feed entries with the same canonical URL
yield two identical index rows — the pipeline re-checks nothing before
appending — refuting the exactly-one-row-per-stored-id claim. -/
theorem c3_duplicate_rows_counterexample :
    (fileLines (cxDupState.index.getD "")).count cxDupRow = 2 ∧
    (fileLines (cxDupState.index.getD "")).count cxDupRow ≠ 1 := by
  exact ⟨by decide, by decide⟩

/-- Claim C3 (amended): the same id always maps to the same stored path
and re-storing overwrites the single artifact with identical content, so
at most one artifact exists per derived id; the index, however, receives
one row per successful processing with no existence re-check, so duplicate
URLs in one run and repeated runs both append duplicate index rows. -/
theorem c3_one_artifact_duplicate_rows :
    (∀ (uid : String → String) (env : NewsEnv) (base source ym : String)
      (e : RssEntry) (t : String),
      env.fetchText e.link = some t → env.storeErr 0 = false →
      env.storeErr 1 = false →
      (processEntries uid env base source ym [e, e] 0
          ⟨fun _ => none, none⟩).1.articles
          (articlePath base source ym (uid e.link))
        = some ⟨uid e.link, e.title, e.date, e.link, t, source⟩ ∧
      (∀ q, q ≠ articlePath base source ym (uid e.link) →
        (processEntries uid env base source ym [e, e] 0
          ⟨fun _ => none, none⟩).1.articles q = none) ∧
      (processEntries uid env base source ym [e, e] 0
          ⟨fun _ => none, none⟩).1.index
        = some (indexHeader ++ "\n"
            ++ formatIndexRow (uid e.link) e.title e.date source
              (articlePath base source ym (uid e.link)) ++ "\n"
            ++ formatIndexRow (uid e.link) e.title e.date source
              (articlePath base source ym (uid e.link)) ++ "\n")) ∧
    (∀ (uid : String → String) (env : NewsEnv) (base source ym : String)
      (entries : List RssEntry),
      (∀ q, (processEntries uid env base source ym entries 0
          (processEntries uid env base source ym entries 0
            ⟨fun _ => none, none⟩).1).1.articles q
        = (processEntries uid env base source ym entries 0
            ⟨fun _ => none, none⟩).1.articles q) ∧
      (rowsOf uid env base source ym entries 0 ≠ "" →
        (processEntries uid env base source ym entries 0
          (processEntries uid env base source ym entries 0
            ⟨fun _ => none, none⟩).1).1.index
          = some (indexHeader ++ "\n"
              ++ (rowsOf uid env base source ym entries 0
                ++ rowsOf uid env base source ym entries 0)))) := by
  constructor
  · intro uid env base source ym e t hf hs0 hs1
    have harts := processEntries_articles uid env base source ym [e, e] 0
      ⟨fun _ => none, none⟩
    have hidx := processEntries_index_none uid env base source ym [e, e] 0
      ⟨fun _ => none, none⟩ rfl
    have hrows : rowsOf uid env base source ym [e, e] 0
        = formatIndexRow (uid e.link) e.title e.date source
            (articlePath base source ym (uid e.link)) ++ "\n"
          ++ (formatIndexRow (uid e.link) e.title e.date source
            (articlePath base source ym (uid e.link)) ++ "\n" ++ "") := by
      simp [rowsOf, hf, hs0, hs1, String.append_assoc]
    refine ⟨?_, ?_, ?_⟩
    · rw [harts]
      simp [writeOps, hf, hs0, hs1, applyOps, updateArticles]
    · intro q hq
      rw [harts]
      simp [writeOps, hf, hs0, hs1, applyOps, updateArticles, hq]
    · rw [hidx, if_neg (by rw [hrows]; exact append_newline_ne _ _), hrows]
      simp [String.append_assoc, String.append_empty]
  · intro uid env base source ym entries
    constructor
    · intro q
      rw [processEntries_articles uid env base source ym entries 0
          (processEntries uid env base source ym entries 0
            ⟨fun _ => none, none⟩).1,
        processEntries_articles uid env base source ym entries 0
          ⟨fun _ => none, none⟩]
      exact applyOps_idem _ _ q
    · intro hrows
      have h1 := processEntries_index_none uid env base source ym entries 0
        ⟨fun _ => none, none⟩ rfl
      rw [if_neg hrows] at h1
      have h2 := processEntries_index_some uid env base source ym entries 0
        (processEntries uid env base source ym entries 0
          ⟨fun _ => none, none⟩).1 _ h1
      rw [h2]
      simp [String.append_assoc]

/-- Claim C3 (amended), instantiated: processing the same URL twice leaves
one artifact, and a second identical run leaves the artifact map unchanged
while appending the same rows again. -/
theorem c3_one_artifact_duplicate_rows_witness :
    cxDupState.articles "b/s/m/u.json"
      = some ⟨"u", "t", "d", "u", "body", "s"⟩ ∧
    (processEntries cxUid cxNewsEnv "b" "s" "m" [cxEntry] 0
      (processEntries cxUid cxNewsEnv "b" "s" "m" [cxEntry] 0
        cxNewsState0).1).1.index
      = some (indexHeader ++ "\n"
          ++ (rowsOf cxUid cxNewsEnv "b" "s" "m" [cxEntry] 0
            ++ rowsOf cxUid cxNewsEnv "b" "s" "m" [cxEntry] 0)) := by
  constructor
  · exact (c3_one_artifact_duplicate_rows.1 cxUid cxNewsEnv "b" "s" "m"
      cxEntry "body" rfl rfl rfl).1
  · exact (c3_one_artifact_duplicate_rows.2 cxUid cxNewsEnv "b" "s" "m"
      [cxEntry]).2 (by decide)

/-- Claim C1, counterexample: the replay pass reuses the full retry loop,
so with `max_retries = 2` an always-failing item is fetched twice more in
the replay pass — not at most once more as the claim states. -/
theorem c1_replay_counterexample :
    cxReplayTrace.count (Event.fetch "docs/1230.pdf") = 2 ∧
    ¬ cxReplayTrace.count (Event.fetch "docs/1230.pdf") ≤ 1 := by
  exact ⟨by decide, by decide⟩

/-- Claim C1 (amended): an always-failing eligible item is attempted
exactly `max_retries` times in the main pass and — because the replay pass
re-runs the full retry loop over the persisted failure list — exactly
`max_retries` further times in the replay pass, after which it is recorded
in the failure file and no artifact file for it exists. -/
theorem c1_retry_and_replay (cfg : Config) (parse : PdfParser)
    (env : TdnetItem → AttemptEnv) (pre post : List TdnetItem)
    (it : TdnetItem) (fs : TdnetFS)
    (hne : ∀ j ∈ pre ++ post, (j.company_code.data.getLast?).isSome = true)
    (helig : it.company_code.data.getLast? = some '0')
    (hfail : ∀ k, attemptFailsB parse (env it) k = true)
    (hurl : ∀ j ∈ pre ++ post, j.document_url ≠ it.document_url)
    (hpath : ∀ j ∈ pre ++ post, pdfPath cfg j ≠ pdfPath cfg it)
    (hff : ∀ j ∈ pre ++ it :: post, pdfPath cfg j ≠ cfg.failed_downloads_file)
    (hfs : fs (pdfPath cfg it) = none) :
    ∃ failed fs1 tr1 fs2 tr2,
      run_download_phase cfg parse env (pre ++ it :: post) fs
        = .ok (failed, fs1, tr1, fs2, tr2) ∧
      it ∈ failed ∧
      tr1.count (Event.fetch it.document_url) = cfg.max_retries ∧
      tr2.count (Event.fetch it.document_url) = cfg.max_retries ∧
      fs2 cfg.failed_downloads_file = some (.failList failed) ∧
      fs2 (pdfPath cfg it) = none := by
  obtain ⟨fpre, fpost, fs1, tr1, heq1, hsubpre, hsubpost, hcount1, hfs1, _⟩ :=
    pd_target cfg parse env it helig hfail pre post fs hne hurl hpath hfs
  have hmem : ∀ j ∈ fpre ++ fpost, j ∈ pre ++ post := by
    intro j hj
    rcases List.mem_append.mp hj with h | h
    · exact List.mem_append.mpr (Or.inl (hsubpre j h))
    · exact List.mem_append.mpr (Or.inr (hsubpost j h))
  have hmem' : ∀ j ∈ fpre ++ fpost, j ∈ pre ++ it :: post := by
    intro j hj
    rcases List.mem_append.mp (hmem j hj) with h | h
    · exact List.mem_append.mpr (Or.inl h)
    · exact List.mem_append.mpr (Or.inr (List.mem_cons_of_mem _ h))
  have hitff : pdfPath cfg it ≠ cfg.failed_downloads_file :=
    hff it (List.mem_append.mpr (Or.inr (List.mem_cons_self _ _)))
  have hsave : (save_data fs1 (fpre ++ it :: fpost) cfg.failed_downloads_file)
      (pdfPath cfg it) = none := by
    unfold save_data updateFS
    rw [if_neg hitff]
    exact hfs1
  obtain ⟨gpre, gpost, fs2, tr2, heq2, _, _, hcount2, hfs2, hframe2⟩ :=
    pd_target cfg parse env it helig hfail fpre fpost
      (save_data fs1 (fpre ++ it :: fpost) cfg.failed_downloads_file)
      (fun j hj => hne j (hmem j hj))
      (fun j hj => hurl j (hmem j hj))
      (fun j hj => hpath j (hmem j hj))
      hsave
  have hnonempty : (fpre ++ it :: fpost).isEmpty = false := by
    cases fpre <;> rfl
  refine ⟨fpre ++ it :: fpost, fs1, tr1, fs2, tr2, ?_, by simp, hcount1,
    hcount2, ?_, hfs2⟩
  · unfold run_download_phase
    rw [heq1]
    unfold retry_failed_downloads
    simp only [hnonempty, Bool.false_eq_true, if_false]
    rw [heq2]
  · rw [hframe2 cfg.failed_downloads_file (fun h => hitff h.symm)
      (fun j hj h => hff j (hmem' j hj) h.symm)]
    unfold save_data updateFS
    rw [if_pos rfl]

/-- Claim C1 (amended), instantiated: with a retry budget of two, the
always-failing item is fetched twice in the main pass and twice in the
replay pass, is recorded in the failure file, and has no artifact. -/
theorem c1_retry_and_replay_witness :
    ∃ failed fs1 tr1 fs2 tr2,
      run_download_phase cxConfig cxParse cxEnvFail [cxItem] cxFS
        = .ok (failed, fs1, tr1, fs2, tr2) ∧
      cxItem ∈ failed ∧
      tr1.count (Event.fetch "docs/1230.pdf") = 2 ∧
      tr2.count (Event.fetch "docs/1230.pdf") = 2 ∧
      fs2 "failed.json" = some (.failList failed) ∧
      fs2 (pdfPath cxConfig cxItem) = none := by
  exact c1_retry_and_replay cxConfig cxParse cxEnvFail [] [] cxItem cxFS
    (by simp) (by decide) (fun _ => rfl) (by simp) (by simp) (by decide) rfl

end NewsScraper
